import Mathlib

/-!
Verification development for the freedom message-routing core.

The repository pieces embedded here:
* `port-debug.js` — the Debug port (`fdom.port.Debug`): its constructor state,
  `onMessage`, `format`, `log` / `warn` / `error`.
* The WebSocket social provider (`WSSocialProvider`), in particular
  `changeRoster`.
* The Hub / Port Manager / ChannelFactory triad.  Their implementations are
  not part of the sources available here (only their Jasmine tests and the
  spec describe them), so those components are modelled from the spec, as
  flagged on each definition.

Machine details: identifiers are `Nat`/`String`, payloads are opaque type
parameters or `String`, maps are association lists, event dispatch is an
explicit trace of invocations appended to the state.
-/

namespace Freedom

/-! ### Association-list helpers (shared by all models) -/

/-- First-match lookup in an association list. -/
def lookupKey {κ α : Type} [DecidableEq κ] : List (κ × α) → κ → Option α
  | [], _ => none
  | (k, v) :: t, i => if k = i then some v else lookupKey t i

/-- In-place update of every entry with the given key. -/
def updateKey {κ α : Type} [DecidableEq κ] : List (κ × α) → κ → (α → α) → List (κ × α)
  | [], _, _ => []
  | (k, v) :: t, i, g =>
    if k = i then (k, g v) :: updateKey t i g else (k, v) :: updateKey t i g

/-- Remove every entry with the given key. -/
def eraseKey {κ α : Type} [DecidableEq κ] (l : List (κ × α)) (i : κ) : List (κ × α) :=
  l.filter (fun p => p.1 ≠ i)

/-- JS-style assignment `map[i] = v`. -/
def setKey {κ α : Type} [DecidableEq κ] (l : List (κ × α)) (i : κ) (v : α) :
    List (κ × α) :=
  eraseKey l i ++ [(i, v)]

end Freedom

namespace Freedom.DebugPort

/-!
### The Debug port, embedded from `port-debug.js`.

`handleEvents(this)` (the on/emit mixin freedom attaches to ports) is not in
the available sources; its behaviour is modelled from the spec: `on(event, l)`
appends `l` to the listener list for `event`, `emit(event)` invokes every
registered listener in registration order, and listeners persist.  The only
event the Debug port uses on itself is `ready`, whose listeners are the
closures `this.format.bind(this, severity, source, args)`; a listener is
therefore represented by the triple of bound arguments.  Emissions
`this.emit(this.emitChannel, …)` leave the port toward the hub and are
recorded in an `emitted` trace.
-/

/-- A deferred `format` call: the arguments bound in
`this.format.bind(this, severity, source, args)`. -/
structure FormatCall where
  severity : String
  src : Option String
  args : String
deriving DecidableEq

/-- The object `{severity, source, quiet: true, request: "debug", msg}` that
`format` emits on the debug channel. -/
structure DebugOut where
  severity : String
  src : Option String
  quiet : Bool
  request : String
  msg : String
deriving DecidableEq

/-- Message body built by `format` from a call's bound arguments. -/
def mkOut (c : FormatCall) : DebugOut :=
  { severity := c.severity, src := c.src, quiet := true, request := "debug", msg := c.args }

/-- A control message as consumed by `Debug.onMessage`: `channel` is `none`
when the JS `message.channel` field is absent/falsy; `configDebug` and
`configConsole` stand for `message.config.debug` and
`message.config.global.console`. -/
structure CtrlMsg where
  channel : Option String
  configDebug : String
  configConsole : String

/-- State of `fdom.port.Debug`: `emitChannel`, `config`, `console` start
falsy (`none`), plus the `ready` listener list installed by `handleEvents`
and the trace of messages emitted on debug channels. -/
structure Debug where
  emitChannel : Option String
  config : Option String
  console : Option String
  readyListeners : List FormatCall
  emitted : List (String × DebugOut)

/-- `fdom.port.Debug()` constructor state. -/
def Debug.init : Debug :=
  { emitChannel := none, config := none, console := none
    readyListeners := [], emitted := [] }

/-- `Debug.prototype.format`: while `emitChannel` is unset, defer by
registering a `ready` listener with the bound arguments; once set, emit the
formatted message on the debug channel. -/
def Debug.format (s : Debug) (c : FormatCall) : Debug :=
  match s.emitChannel with
  | none => { s with readyListeners := s.readyListeners ++ [c] }
  | some ch => { s with emitted := s.emitted ++ [(ch, mkOut c)] }

/-- `this.emit('ready')`: invoke every registered `ready` listener in
registration order (each one is a bound `format` call). -/
def Debug.emitReady (s : Debug) : Debug :=
  s.readyListeners.foldl Debug.format s

/-- `Debug.prototype.onMessage`: on a `control`-sourced message with a truthy
`channel` while `emitChannel` is still unset, install the channel, config and
console, then emit `ready`; otherwise do nothing. -/
def Debug.onMessage (s : Debug) (source : String) (m : CtrlMsg) : Debug :=
  if source = "control" ∧ m.channel.isSome ∧ s.emitChannel = none then
    Debug.emitReady
      { s with emitChannel := m.channel, config := some m.configDebug,
               console := some m.configConsole }
  else s

/-- `Debug.prototype.log`: `format('log', undefined, JSON.stringify(arguments))`. -/
def Debug.log (s : Debug) (args : String) : Debug :=
  Debug.format s { severity := "log", src := none, args := args }

/-- `Debug.prototype.warn`. -/
def Debug.warn (s : Debug) (args : String) : Debug :=
  Debug.format s { severity := "warn", src := none, args := args }

/-- `Debug.prototype.error`. -/
def Debug.error (s : Debug) (args : String) : Debug :=
  Debug.format s { severity := "error", src := none, args := args }

end Freedom.DebugPort

namespace Freedom.Channels

/-!
### The Channel / ChannelFactory rendezvous protocol.

The implementation is not among the available sources (only its Jasmine
tests, `Core Provider Channels — Links Custom Channels`, are), so every
definition here is modelled from the spec, §3 "Channel state machine" and
§4.3 "ChannelFactory (Core Provider)".  An endpoint handle is the pair of a
channel identifier and a `Side`; listeners are identified by `Nat` tokens;
listener invocations are recorded in a per-channel trace.
-/

variable {M : Type}

/-- Modelled from the spec: channel lifecycle `PENDING → CONNECTED → CLOSED`. -/
inductive ChanState
  | pending
  | connected
  | closed
deriving DecidableEq

/-- The two ends of a channel: `input` is the endpoint handed out by
`createChannel`, `output` the one returned by `bindChannel`. -/
inductive Side
  | input
  | output
deriving DecidableEq

/-- The opposite end. -/
def Side.peer : Side → Side
  | .input => .output
  | .output => .input

/-- Modelled from the spec: one Channel — its state, the listeners
registered on each end (in registration order), the buffer of messages sent
while PENDING (§9: buffering chosen), and the trace of listener invocations
`(side of listener, listener, payload)`. -/
structure ChanM (M : Type) where
  st : ChanState
  listenersIn : List Nat
  listenersOut : List Nat
  buffer : List (Side × M)
  invocs : List (Side × Nat × M)
deriving DecidableEq

/-- Listeners registered on a given end. -/
def ChanM.listeners (c : ChanM M) : Side → List Nat
  | .input => c.listenersIn
  | .output => c.listenersOut

/-- A freshly allocated PENDING channel. -/
def freshChan (M : Type) : ChanM M :=
  { st := .pending, listenersIn := [], listenersOut := [], buffer := [], invocs := [] }

/-- Invoke every listener on side `s` with payload `m`, in registration
order. -/
def ChanM.deliver (c : ChanM M) (s : Side) (m : M) : ChanM M :=
  { c with invocs := c.invocs ++ (c.listeners s).map (fun l => (s, l, m)) }

/-- `endpoint.on(listener)`: append a listener to one end. -/
def ChanM.register (c : ChanM M) (s : Side) (l : Nat) : ChanM M :=
  match s with
  | .input => { c with listenersIn := c.listenersIn ++ [l] }
  | .output => { c with listenersOut := c.listenersOut ++ [l] }

/-- `endpoint.emit(payload)`: while PENDING the message is buffered; once
CONNECTED it is delivered to the peer end's listeners; after CLOSED it is a
no-op. -/
def ChanM.emit (c : ChanM M) (s : Side) (m : M) : ChanM M :=
  match c.st with
  | .pending => { c with buffer := c.buffer ++ [(s, m)] }
  | .connected => c.deliver s.peer m
  | .closed => c

/-- The PENDING → CONNECTED transition: flush buffered messages, each to the
peer of the end it was sent on, in send order. -/
def ChanM.connect (c : ChanM M) : ChanM M :=
  c.buffer.foldl (fun acc sm => acc.deliver sm.1.peer sm.2)
    { c with st := .connected, buffer := [] }

/-- Release both ends: CLOSED, buffer dropped. -/
def ChanM.close (c : ChanM M) : ChanM M :=
  { c with st := .closed, buffer := [] }

/-- Modelled from the spec, §7: failures of `bindChannel` (unknown
identifier, double-bind, bind-after-close). -/
inductive ChannelBindError
  | noSuchChannel
  | alreadyBound
  | channelClosed
deriving DecidableEq

/-- Modelled from the spec: a per-Port ChannelFactory — a monotone
identifier counter and the channels it has allocated. -/
structure ChannelFactory (M : Type) where
  next : Nat
  chans : List (Nat × ChanM M)
deriving DecidableEq

/-- A fresh factory (state of `new core()`). -/
def ChannelFactory.init (M : Type) : ChannelFactory M :=
  { next := 0, chans := [] }

/-- Modelled from the spec: `createChannel()` — allocate a fresh identifier
from the counter, create a PENDING channel, and return the identifier
together with the input-side endpoint. -/
def createChannel (f : ChannelFactory M) : ChannelFactory M × Nat × Side :=
  ({ next := f.next + 1, chans := f.chans ++ [(f.next, freshChan M)] },
   f.next, Side.input)

/-- Modelled from the spec: `bindChannel(identifier)` — if the identifier
names a PENDING channel, move it to CONNECTED and return the output-side
endpoint; otherwise fail with a `ChannelBindError`. -/
def bindChannel (f : ChannelFactory M) (i : Nat) :
    Except ChannelBindError (ChannelFactory M × Side) :=
  match lookupKey f.chans i with
  | none => .error .noSuchChannel
  | some c =>
    match c.st with
    | .pending => .ok ({ next := f.next, chans := updateKey f.chans i ChanM.connect },
                       Side.output)
    | .connected => .error .alreadyBound
    | .closed => .error .channelClosed

/-- Register a listener on one end of channel `i` (no-op if `i` is
unknown). -/
def registerOn (f : ChannelFactory M) (i : Nat) (s : Side) (l : Nat) :
    ChannelFactory M :=
  { next := f.next, chans := updateKey f.chans i (fun c => c.register s l) }

/-- Emit a payload on one end of channel `i` (no-op if `i` is unknown). -/
def emitOn (f : ChannelFactory M) (i : Nat) (s : Side) (m : M) : ChannelFactory M :=
  { next := f.next, chans := updateKey f.chans i (fun c => c.emit s m) }

/-- Close channel `i`. -/
def closeChannel (f : ChannelFactory M) (i : Nat) : ChannelFactory M :=
  { next := f.next, chans := updateKey f.chans i ChanM.close }

/-- Counter invariant: every allocated identifier is below the counter. -/
def FactInv (f : ChannelFactory M) : Prop :=
  ∀ p ∈ f.chans, p.1 < f.next

/-- Identifier `i` has left the PENDING state (a bind already succeeded, or
the channel was closed). -/
def Bound (f : ChannelFactory M) (i : Nat) : Prop :=
  ∃ c, lookupKey f.chans i = some c ∧ c.st ≠ ChanState.pending

/-- One step of any factory operation. -/
inductive FactStep : ChannelFactory M → ChannelFactory M → Prop
  | create (f : ChannelFactory M) : FactStep f (createChannel f).1
  | bind (f : ChannelFactory M) (j : Nat) (f' : ChannelFactory M) (s : Side)
      (h : bindChannel f j = .ok (f', s)) : FactStep f f'
  | register (f : ChannelFactory M) (i : Nat) (s : Side) (l : Nat) :
      FactStep f (registerOn f i s l)
  | emit (f : ChannelFactory M) (i : Nat) (s : Side) (m : M) :
      FactStep f (emitOn f i s m)
  | close (f : ChannelFactory M) (i : Nat) : FactStep f (closeChannel f i)

/-- The invocation trace of channel `i`. -/
def chanInvocs (f : ChannelFactory M) (i : Nat) : Option (List (Side × Nat × M)) :=
  (lookupKey f.chans i).map ChanM.invocs

/-- The payloads a single listener `l` on side `s` has observed, in
invocation order. -/
def payloadsFor (tr : List (Side × Nat × M)) (s : Side) (l : Nat) : List M :=
  (tr.filter (fun t => decide (t.1 = s ∧ t.2.1 = l))).map (fun t => t.2.2)

/-- A sample CONNECTED channel with one input-side listener (token 7):
used to instantiate the general theorems. -/
def sampleChan : ChanM String :=
  { st := .connected, listenersIn := [7], listenersOut := [], buffer := [], invocs := [] }

/-- A sample factory whose only channel (identifier 0) is already CONNECTED. -/
def boundFactory : ChannelFactory String :=
  { next := 1,
    chans := [(0, { st := .connected, listenersIn := [], listenersOut := [],
                    buffer := [], invocs := [] })] }

/-- A sample factory whose only channel (identifier 0) is still PENDING. -/
def pendingFactory : ChannelFactory String :=
  { next := 1, chans := [(0, freshChan String)] }

end Freedom.Channels

namespace Freedom.Routing

/-!
### The Hub and Port Manager.

Their implementations are not among the available sources, so these
definitions are modelled from the spec, §4.1 "Hub" and §4.2 "Port Manager":
a routing table from Port id to flow address owned by the Manager, the
`config` broadcast, drop-and-log on unknown targets, and Hub-side stamping
of the `source` field of every delivered message.
-/

variable {Cfg M : Type}

/-- A routed message: origin field plus opaque payload. -/
structure HubMsg (M : Type) where
  source : String
  payload : M
deriving DecidableEq

/-- Modelled from the spec: the combined Hub / Port Manager state —
registered Port ids (in registration order), the `id → flow` table, the last
broadcast configuration, and observation traces: config deliveries, message
deliveries, and debug diagnostics. -/
structure Core (Cfg M : Type) where
  nextFlow : Nat
  ports : List String
  flows : List (String × Nat)
  config : Option Cfg
  configDelivered : List (String × Cfg)
  delivered : List (String × HubMsg M)
  debugLog : List String

/-- An empty Hub / Manager. -/
def Core.init (Cfg M : Type) : Core Cfg M :=
  { nextFlow := 0, ports := [], flows := [], config := none,
    configDelivered := [], delivered := [], debugLog := [] }

/-- Modelled from the spec: `Manager.setup(port)` — re-registration of an
already-registered id fails and changes nothing; a fresh id is registered
with a newly allocated flow address and handed the current configuration at
registration time. -/
def setup (c : Core Cfg M) (pid : String) : Bool × Core Cfg M :=
  if (lookupKey c.flows pid).isSome then (false, c)
  else
    (true,
      { c with
        ports := c.ports ++ [pid]
        flows := c.flows ++ [(pid, c.nextFlow)]
        nextFlow := c.nextFlow + 1
        configDelivered :=
          c.configDelivered ++
            (match c.config with
             | some cfg => [(pid, cfg)]
             | none => []) })

/-- Modelled from the spec: the `config` broadcast — install the
configuration as shared state and deliver it once to every currently
registered Port, in registration order. -/
def emitConfig (c : Core Cfg M) (cfg : Cfg) : Core Cfg M :=
  { c with
    config := some cfg
    configDelivered := c.configDelivered ++ c.ports.map (fun p => (p, cfg)) }

/-- Modelled from the spec: `Hub.emit(target, message)` — deliver to the
target's flow if registered; otherwise drop the message and surface a
"no such target" diagnostic to the debug port. -/
def hubEmit (c : Core Cfg M) (target : String) (m : HubMsg M) : Core Cfg M :=
  match lookupKey c.flows target with
  | some _ => { c with delivered := c.delivered ++ [(target, m)] }
  | none => { c with debugLog := c.debugLog ++ ["no such target " ++ target] }

/-- The Port id registered as the owner of a flow address. -/
def ownerOf (c : Core Cfg M) (fl : Nat) : Option String :=
  (c.flows.find? (fun p => p.2 == fl)).map (fun p => p.1)

/-- Modelled from the spec: a send arriving at the Hub on flow `fl` — the
Hub stamps the `source` field from the flow's registered owner (never
trusting the sender-supplied field) before routing to `target`; a send on an
unregistered flow is dropped with a diagnostic. -/
def hubSendFrom (c : Core Cfg M) (fl : Nat) (target : String) (m : HubMsg M) :
    Core Cfg M :=
  match ownerOf c fl with
  | some o => hubEmit c target { m with source := o }
  | none => { c with debugLog := c.debugLog ++ ["unknown flow"] }

/-- A sample Hub / Manager state with one registered Port `p` on flow 0:
used to instantiate the general theorems. -/
def sampleCore : Core String String :=
  { nextFlow := 1, ports := ["p"], flows := [("p", 0)], config := none,
    configDelivered := [], delivered := [], debugLog := [] }

end Freedom.Routing

namespace Freedom.WSSocial

/-!
### `WSSocialProvider.changeRoster`, embedded from the provider source.

`this.STATUS` is the social API status table; only the `ONLINE` / `OFFLINE`
entries are used by `changeRoster`.  `dispatchEvent` is modelled as an event
trace appended to the state; the two `new Date().getTime()` calls are the
`now` parameter.
-/

/-- The status values `changeRoster` uses. -/
inductive SStatus
  | online
  | offline
deriving DecidableEq

/-- A `<client_state>` record `{userId, clientId, timestamp, status}`. -/
structure ClientState where
  userId : String
  clientId : String
  timestamp : Nat
  status : SStatus
deriving DecidableEq

/-- A `<user_profile>` record `{userId, name, timestamp}`. -/
structure UserProfile where
  userId : String
  name : String
  timestamp : Nat
deriving DecidableEq

/-- Events the provider dispatches. -/
inductive SEvent
  | onClientState (c : ClientState)
  | onUserProfile (u : UserProfile)
deriving DecidableEq

/-- Provider state touched by `changeRoster`: the `users` and `clients`
maps and the trace of dispatched events. -/
structure Social where
  users : List (String × UserProfile)
  clients : List (String × ClientState)
  events : List SEvent

/-- `WSSocialProvider.prototype.changeRoster(id, stat)`:
build the result card with status ONLINE when `stat` is truthy and OFFLINE
otherwise; dispatch `onClientState` when `id` is not a key of `clients` or
the stored status differs from the new one; then, when `stat` is truthy,
store the card in `clients` and, for a previously unseen user, add a profile
to `users` and dispatch `onUserProfile`; when `stat` is falsy, delete `id`
from both `users` and `clients`.  Returns the updated state and the card. -/
def changeRoster (s : Social) (id : String) (stat : Bool) (now : Nat) :
    Social × ClientState :=
  let newStatus : SStatus := if stat then .online else .offline
  let result : ClientState :=
    { userId := id, clientId := id, timestamp := now, status := newStatus }
  let doDispatch : Bool :=
    match Freedom.lookupKey s.clients id with
    | none => true
    | some c => decide (c.status ≠ newStatus)
  let ev1 : List SEvent := if doDispatch then [SEvent.onClientState result] else []
  if stat then
    let clients1 := Freedom.setKey s.clients id result
    match Freedom.lookupKey s.users id with
    | none =>
      let u : UserProfile := { userId := id, name := id, timestamp := now }
      ({ users := Freedom.setKey s.users id u, clients := clients1,
         events := s.events ++ ev1 ++ [SEvent.onUserProfile u] }, result)
    | some _ =>
      ({ s with clients := clients1, events := s.events ++ ev1 }, result)
  else
    ({ users := Freedom.eraseKey s.users id, clients := Freedom.eraseKey s.clients id,
       events := s.events ++ ev1 }, result)

/-- An empty provider state. -/
def sampleSocial : Social :=
  { users := [], clients := [], events := [] }

end Freedom.WSSocial

/-! ## Theorems -/

namespace Freedom

theorem lookupKey_append_left {κ α : Type} [DecidableEq κ]
    {l : List (κ × α)} {i : κ} {v : α} (h : lookupKey l i = some v) (l' : List (κ × α)) :
    lookupKey (l ++ l') i = some v := by
  induction l with
  | nil => simp [lookupKey] at h
  | cons p t ih =>
    obtain ⟨k, w⟩ := p
    by_cases hk : k = i
    · simp [lookupKey, hk] at h ⊢; exact h
    · simp [lookupKey, hk] at h ⊢; exact ih h

theorem lookupKey_append_fresh {κ α : Type} [DecidableEq κ]
    {l : List (κ × α)} {i : κ} (h : ∀ p ∈ l, p.1 ≠ i) (v : α) :
    lookupKey (l ++ [(i, v)]) i = some v := by
  induction l with
  | nil => simp [lookupKey]
  | cons p t ih =>
    have hp : p.1 ≠ i := h p (by simp)
    simp only [List.cons_append, lookupKey, if_neg hp]
    exact ih (fun q hq => h q (by simp [hq]))

theorem lookupKey_updateKey_self {κ α : Type} [DecidableEq κ]
    {l : List (κ × α)} {i : κ} {v : α} (g : α → α) (h : lookupKey l i = some v) :
    lookupKey (updateKey l i g) i = some (g v) := by
  induction l with
  | nil => simp [lookupKey] at h
  | cons p t ih =>
    obtain ⟨k, w⟩ := p
    by_cases hk : k = i
    · subst hk
      simp [lookupKey] at h
      simp [updateKey, lookupKey, h]
    · simp [lookupKey, hk] at h
      simpa [updateKey, lookupKey, hk] using ih h

theorem lookupKey_updateKey_other {κ α : Type} [DecidableEq κ]
    (l : List (κ × α)) {i j : κ} (g : α → α) (h : j ≠ i) :
    lookupKey (updateKey l i g) j = lookupKey l j := by
  induction l with
  | nil => simp [updateKey, lookupKey]
  | cons p t ih =>
    obtain ⟨k, w⟩ := p
    by_cases hk : k = i
    · subst hk
      have hpj : k ≠ j := fun e => h e.symm
      simpa [updateKey, lookupKey, hpj] using ih
    · by_cases hpj : k = j
      · subst hpj
        simp [updateKey, lookupKey, hk]
      · simpa [updateKey, lookupKey, hk, hpj] using ih

theorem lookupKey_updateKey_none {κ α : Type} [DecidableEq κ]
    {l : List (κ × α)} {i : κ} (j : κ) (g : α → α) (h : lookupKey l i = none) :
    lookupKey (updateKey l j g) i = none := by
  induction l with
  | nil => simp [updateKey, lookupKey]
  | cons p t ih =>
    obtain ⟨k, w⟩ := p
    by_cases hk : k = i
    · simp [lookupKey, hk] at h
    · by_cases hj : k = j
      · subst hj
        simp [lookupKey, hk] at h
        simpa [updateKey, lookupKey, hk] using ih h
      · simp [lookupKey, hk] at h
        simpa [updateKey, lookupKey, hk, hj] using ih h

theorem lookupKey_eraseKey_self {κ α : Type} [DecidableEq κ]
    (l : List (κ × α)) (i : κ) : lookupKey (eraseKey l i) i = none := by
  induction l with
  | nil => simp [eraseKey, lookupKey]
  | cons p t ih =>
    by_cases hk : p.1 = i
    · simpa [eraseKey, hk] using ih
    · simpa [eraseKey, lookupKey, hk] using ih

theorem lookupKey_setKey_self {κ α : Type} [DecidableEq κ]
    (l : List (κ × α)) (i : κ) (v : α) : lookupKey (setKey l i v) i = some v := by
  unfold setKey
  apply lookupKey_append_fresh
  intro p hp
  have := List.of_mem_filter hp
  simpa using this

end Freedom

namespace Freedom.DebugPort

theorem format_emitChannel (s : Debug) (c : FormatCall) :
    (Debug.format s c).emitChannel = s.emitChannel := by
  unfold Debug.format
  cases s.emitChannel <;> rfl

theorem foldl_format_emitChannel (l : List FormatCall) (s : Debug) :
    (l.foldl Debug.format s).emitChannel = s.emitChannel := by
  induction l generalizing s with
  | nil => rfl
  | cons c t ih => simpa [format_emitChannel] using ih (Debug.format s c)

/-- Flushing listeners onto a connected state appends one emission per
deferred call, in registration order. -/
theorem foldl_format_emitted (l : List FormatCall) (s : Debug) (ch : String)
    (h : s.emitChannel = some ch) :
    (l.foldl Debug.format s).emitted =
      s.emitted ++ l.map (fun c => (ch, mkOut c)) := by
  induction l generalizing s with
  | nil => simp
  | cons c t ih =>
    have hstep : Debug.format s c =
        { s with emitted := s.emitted ++ [(ch, mkOut c)] } := by
      unfold Debug.format; rw [h]
    have hch : (Debug.format s c).emitChannel = some ch := by
      rw [format_emitChannel]; exact h
    simp only [List.foldl_cons]
    rw [ih (Debug.format s c) hch, hstep]
    simp

/-- Once `emitChannel` is set, `onMessage` is the identity. -/
theorem onMessage_of_set (s : Debug) (source : String) (m : CtrlMsg)
    (h : s.emitChannel.isSome) : Debug.onMessage s source m = s := by
  unfold Debug.onMessage
  have hne : ¬ s.emitChannel = none := by
    cases hc : s.emitChannel
    · rw [hc] at h; simp at h
    · simp
  rw [if_neg]
  intro hcon
  exact hne hcon.2.2

/-- Claim C8: for the Debug port, only the first control message carrying a
channel takes effect — once `onMessage` has set `emitChannel` (from a
message with source `control` and a truthy `channel`), every subsequent
`onMessage` call leaves `emitChannel`, `config` and `console` unchanged. -/
theorem C8_first_control_wins (s : Debug) (source : String) (m : CtrlMsg)
    (source' : String) (m' : CtrlMsg)
    (h : (Debug.onMessage s source m).emitChannel.isSome) :
    (Debug.onMessage (Debug.onMessage s source m) source' m').emitChannel
        = (Debug.onMessage s source m).emitChannel ∧
    (Debug.onMessage (Debug.onMessage s source m) source' m').config
        = (Debug.onMessage s source m).config ∧
    (Debug.onMessage (Debug.onMessage s source m) source' m').console
        = (Debug.onMessage s source m).console := by
  rw [onMessage_of_set _ source' m' h]
  exact ⟨rfl, rfl, rfl⟩

theorem C8_first_control_wins_witness :
    (Debug.onMessage
        (Debug.onMessage Debug.init "control"
          { channel := some "chan", configDebug := "dbg", configConsole := "cons" })
        "control"
        { channel := some "chan2", configDebug := "dbg2", configConsole := "cons2" }).emitChannel
      = (Debug.onMessage Debug.init "control"
          { channel := some "chan", configDebug := "dbg", configConsole := "cons" }).emitChannel ∧
    (Debug.onMessage
        (Debug.onMessage Debug.init "control"
          { channel := some "chan", configDebug := "dbg", configConsole := "cons" })
        "control"
        { channel := some "chan2", configDebug := "dbg2", configConsole := "cons2" }).config
      = (Debug.onMessage Debug.init "control"
          { channel := some "chan", configDebug := "dbg", configConsole := "cons" }).config ∧
    (Debug.onMessage
        (Debug.onMessage Debug.init "control"
          { channel := some "chan", configDebug := "dbg", configConsole := "cons" })
        "control"
        { channel := some "chan2", configDebug := "dbg2", configConsole := "cons2" }).console
      = (Debug.onMessage Debug.init "control"
          { channel := some "chan", configDebug := "dbg", configConsole := "cons" }).console :=
  C8_first_control_wins Debug.init "control"
    { channel := some "chan", configDebug := "dbg", configConsole := "cons" }
    "control"
    { channel := some "chan2", configDebug := "dbg2", configConsole := "cons2" }
    (by decide)

/-- Claim C9: a debug message issued through `format` (hence through `log`,
`warn` or `error`) while `emitChannel` is unset is deferred as a `ready`
listener and nothing is emitted yet; when the control message installing the
channel arrives, every deferred call — the earlier ones and this one — is
emitted on the debug channel exactly once, in order. -/
theorem C9_deferred_logs_flushed (s : Debug) (c : FormatCall) (m : CtrlMsg)
    (ch : String) (h0 : s.emitChannel = none) (h1 : m.channel = some ch) :
    (Debug.format s c).readyListeners = s.readyListeners ++ [c] ∧
    (Debug.format s c).emitted = s.emitted ∧
    (Debug.onMessage (Debug.format s c) "control" m).emitted =
      s.emitted ++ (s.readyListeners ++ [c]).map (fun d => (ch, mkOut d)) := by
  have hf : Debug.format s c = { s with readyListeners := s.readyListeners ++ [c] } := by
    unfold Debug.format; rw [h0]
  refine ⟨by rw [hf], by rw [hf], ?_⟩
  have hcond : "control" = "control" ∧ m.channel.isSome ∧
      (Debug.format s c).emitChannel = none :=
    ⟨rfl, by simp [h1], by rw [format_emitChannel, h0]⟩
  unfold Debug.onMessage
  rw [if_pos hcond]
  unfold Debug.emitReady
  rw [foldl_format_emitted _ _ ch (by simp [h1])]
  rw [hf]

theorem C9_deferred_logs_flushed_witness :
    (Debug.format Debug.init { severity := "log", src := none, args := "hi" }).readyListeners
      = Debug.init.readyListeners ++ [{ severity := "log", src := none, args := "hi" }] ∧
    (Debug.format Debug.init { severity := "log", src := none, args := "hi" }).emitted
      = Debug.init.emitted ∧
    (Debug.onMessage
        (Debug.format Debug.init { severity := "log", src := none, args := "hi" })
        "control"
        { channel := some "chan", configDebug := "dbg", configConsole := "cons" }).emitted
      = Debug.init.emitted ++
          (Debug.init.readyListeners ++
            [({ severity := "log", src := none, args := "hi" } : FormatCall)]).map
            (fun d => ("chan", mkOut d)) :=
  C9_deferred_logs_flushed Debug.init
    { severity := "log", src := none, args := "hi" }
    { channel := some "chan", configDebug := "dbg", configConsole := "cons" }
    "chan" (by decide) (by decide)

end Freedom.DebugPort

namespace Freedom.Channels

variable {M : Type}

theorem deliver_st (c : ChanM M) (s : Side) (m : M) : (c.deliver s m).st = c.st := rfl

theorem deliver_listeners (c : ChanM M) (s : Side) (m : M) (s' : Side) :
    (c.deliver s m).listeners s' = c.listeners s' := by
  cases s' <;> rfl

theorem register_st (c : ChanM M) (s : Side) (l : Nat) : (c.register s l).st = c.st := by
  cases s <;> rfl

theorem emit_st (c : ChanM M) (s : Side) (m : M) : (c.emit s m).st = c.st := by
  cases h : c.st <;> simp [ChanM.emit, ChanM.deliver, h]

theorem emit_connected (c : ChanM M) (s : Side) (m : M) (h : c.st = ChanState.connected) :
    c.emit s m = c.deliver s.peer m := by
  simp [ChanM.emit, h]

theorem foldl_deliver_st (bs : List (Side × M)) (c0 : ChanM M) :
    (bs.foldl (fun acc sm => acc.deliver sm.1.peer sm.2) c0).st = c0.st := by
  induction bs generalizing c0 with
  | nil => rfl
  | cons b t ih => simpa [deliver_st] using ih (c0.deliver b.1.peer b.2)

theorem connect_st (c : ChanM M) : c.connect.st = ChanState.connected := by
  unfold ChanM.connect
  rw [foldl_deliver_st]

theorem connect_of_empty_buffer (c : ChanM M) (h : c.buffer = []) :
    c.connect = { c with st := ChanState.connected, buffer := [] } := by
  unfold ChanM.connect
  rw [h]
  rfl

theorem payloadsFor_append (a b : List (Side × Nat × M)) (s : Side) (l : Nat) :
    payloadsFor (a ++ b) s l = payloadsFor a s l ++ payloadsFor b s l := by
  simp [payloadsFor, List.filter_append]

theorem payloadsFor_cons (a : Side × Nat × M) (tr : List (Side × Nat × M))
    (s : Side) (l : Nat) :
    payloadsFor (a :: tr) s l =
      if a.1 = s ∧ a.2.1 = l then a.2.2 :: payloadsFor tr s l
      else payloadsFor tr s l := by
  by_cases h : a.1 = s ∧ a.2.1 = l
  · simp [payloadsFor, List.filter_cons, h]
  · simp [payloadsFor, List.filter_cons, h]

theorem payloadsFor_map_not_mem {L : List Nat} {l : Nat} (s : Side) (m : M)
    (h : l ∉ L) : payloadsFor (L.map (fun x => (s, x, m))) s l = [] := by
  induction L with
  | nil => rfl
  | cons x t ih =>
    have hx : ¬ x = l := fun e => h (e ▸ List.mem_cons_self x t)
    have ht : l ∉ t := fun e => h (List.mem_cons_of_mem x e)
    rw [List.map_cons, payloadsFor_cons, if_neg (fun hc => hx hc.2)]
    exact ih ht

theorem payloadsFor_map_nodup_mem {L : List Nat} {l : Nat}
    (hnd : L.Nodup) (hmem : l ∈ L) (s : Side) (m : M) :
    payloadsFor (L.map (fun x => (s, x, m))) s l = [m] := by
  induction L with
  | nil => cases hmem
  | cons x t ih =>
    obtain ⟨hxt, hndt⟩ := List.nodup_cons.mp hnd
    rcases List.mem_cons.mp hmem with he | hmt
    · subst he
      rw [List.map_cons, payloadsFor_cons, if_pos ⟨rfl, rfl⟩,
          payloadsFor_map_not_mem s m hxt]
    · have hx : ¬ x = l := fun e => hxt (e ▸ hmt)
      rw [List.map_cons, payloadsFor_cons, if_neg (fun hc => hx hc.2)]
      exact ih hndt hmt

/-- Claim C2: on a CONNECTED channel, two messages emitted in order on one
endpoint are delivered to the peer endpoint's listeners in that order —
the invocation trace grows by exactly the first message to every peer
listener (in registration order) followed by the second to every peer
listener, and each individual peer listener observes exactly `[m1, m2]`:
nothing lost, nothing duplicated, order preserved. -/
theorem C2_connected_order_preserved (c : ChanM M) (s : Side) (m1 m2 : M)
    (h : c.st = ChanState.connected) :
    ((c.emit s m1).emit s m2).invocs =
      c.invocs ++ (c.listeners s.peer).map (fun l => (s.peer, l, m1))
               ++ (c.listeners s.peer).map (fun l => (s.peer, l, m2)) ∧
    ∀ l : Nat, (c.listeners s.peer).Nodup → l ∈ c.listeners s.peer →
      payloadsFor ((c.emit s m1).emit s m2).invocs s.peer l =
        payloadsFor c.invocs s.peer l ++ [m1, m2] := by
  have h1 : c.emit s m1 = c.deliver s.peer m1 := emit_connected c s m1 h
  have hst : (c.deliver s.peer m1).st = ChanState.connected := by
    rw [deliver_st]; exact h
  have h2 : (c.deliver s.peer m1).emit s m2 = (c.deliver s.peer m1).deliver s.peer m2 :=
    emit_connected _ s m2 hst
  have htrace : ((c.emit s m1).emit s m2).invocs =
      c.invocs ++ (c.listeners s.peer).map (fun l => (s.peer, l, m1))
               ++ (c.listeners s.peer).map (fun l => (s.peer, l, m2)) := by
    rw [h1, h2]
    show (c.deliver s.peer m1).invocs ++
        ((c.deliver s.peer m1).listeners s.peer).map (fun l => (s.peer, l, m2)) = _
    rw [deliver_listeners]
    rfl
  refine ⟨htrace, ?_⟩
  intro l hnd hmem
  rw [htrace, payloadsFor_append, payloadsFor_append,
      payloadsFor_map_nodup_mem hnd hmem, payloadsFor_map_nodup_mem hnd hmem]
  simp

theorem C2_connected_order_preserved_witness :
    ((sampleChan.emit Side.output "a").emit Side.output "b").invocs =
      sampleChan.invocs ++
        (sampleChan.listeners (Side.peer Side.output)).map
          (fun l => (Side.peer Side.output, l, "a")) ++
        (sampleChan.listeners (Side.peer Side.output)).map
          (fun l => (Side.peer Side.output, l, "b")) ∧
    payloadsFor ((sampleChan.emit Side.output "a").emit Side.output "b").invocs
        (Side.peer Side.output) 7 =
      payloadsFor sampleChan.invocs (Side.peer Side.output) 7 ++ ["a", "b"] := by
  have H := C2_connected_order_preserved sampleChan Side.output "a" "b" (by decide)
  exact ⟨H.1, H.2 7 (by decide) (by decide)⟩

theorem bindChannel_pending {f : ChannelFactory M} {i : Nat} {c : ChanM M}
    (hl : lookupKey f.chans i = some c) (hst : c.st = ChanState.pending) :
    bindChannel f i =
      .ok ({ next := f.next, chans := updateKey f.chans i ChanM.connect },
           Side.output) := by
  unfold bindChannel
  rw [hl]
  simp [hst]

theorem bindChannel_bound {f : ChannelFactory M} {i : Nat} (h : Bound f i) :
    ∃ e, bindChannel f i = .error e := by
  obtain ⟨c, hl, hst⟩ := h
  cases hc : c.st with
  | pending => exact absurd hc hst
  | connected =>
    exact ⟨.alreadyBound, by unfold bindChannel; rw [hl]; simp [hc]⟩
  | closed =>
    exact ⟨.channelClosed, by unfold bindChannel; rw [hl]; simp [hc]⟩

theorem bindChannel_unknown {f : ChannelFactory M} {i : Nat}
    (h : lookupKey f.chans i = none) :
    bindChannel f i = .error ChannelBindError.noSuchChannel := by
  unfold bindChannel
  rw [h]

theorem bindChannel_error_not_pending {f : ChannelFactory M} {i : Nat} {c : ChanM M}
    (hl : lookupKey f.chans i = some c) (hst : c.st ≠ ChanState.pending) :
    ∃ e, bindChannel f i = .error e :=
  bindChannel_bound ⟨c, hl, hst⟩

theorem bindChannel_ok_shape {f : ChannelFactory M} {i : Nat}
    {f' : ChannelFactory M} {s : Side} (h : bindChannel f i = .ok (f', s)) :
    s = Side.output ∧
    ∃ c, lookupKey f.chans i = some c ∧ c.st = ChanState.pending ∧
      f' = { next := f.next, chans := updateKey f.chans i ChanM.connect } := by
  cases hl : lookupKey f.chans i with
  | none =>
    rw [bindChannel_unknown hl] at h
    simp at h
  | some c =>
    by_cases hc : c.st = ChanState.pending
    · rw [bindChannel_pending hl hc] at h
      simp only [Except.ok.injEq, Prod.mk.injEq] at h
      exact ⟨h.2.symm, c, rfl, hc, h.1.symm⟩
    · obtain ⟨e, he⟩ := bindChannel_error_not_pending hl hc
      rw [he] at h
      simp at h

theorem bound_after_bind {f : ChannelFactory M} {i : Nat}
    {f' : ChannelFactory M} {s : Side} (h : bindChannel f i = .ok (f', s)) :
    Bound f' i := by
  obtain ⟨-, c, hl, hst, hf⟩ := bindChannel_ok_shape h
  refine ⟨c.connect, ?_, ?_⟩
  · rw [hf]
    exact lookupKey_updateKey_self ChanM.connect hl
  · rw [connect_st]
    exact fun hx => ChanState.noConfusion hx

theorem factStep_preserves_bound {f f' : ChannelFactory M} {i : Nat}
    (hb : Bound f i) (hs : FactStep f f') : Bound f' i := by
  obtain ⟨c, hl, hst⟩ := hb
  cases hs with
  | create =>
    refine ⟨c, ?_, hst⟩
    show lookupKey (f.chans ++ [(f.next, freshChan M)]) i = some c
    exact lookupKey_append_left hl _
  | bind j f₂ sd hok =>
    obtain ⟨-, cj, hlj, hcj, hf⟩ := bindChannel_ok_shape hok
    by_cases hij : i = j
    · subst hij
      rw [hl] at hlj
      cases hlj
      exact absurd hcj hst
    · refine ⟨c, ?_, hst⟩
      rw [hf]
      show lookupKey (updateKey f.chans j ChanM.connect) i = some c
      rw [lookupKey_updateKey_other _ _ hij]
      exact hl
  | register i' sd l =>
    by_cases hij : i = i'
    · subst hij
      refine ⟨c.register sd l, ?_, ?_⟩
      · exact lookupKey_updateKey_self _ hl
      · rw [register_st]; exact hst
    · refine ⟨c, ?_, hst⟩
      show lookupKey (updateKey f.chans i' _) i = some c
      rw [lookupKey_updateKey_other _ _ hij]
      exact hl
  | emit i' sd m =>
    by_cases hij : i = i'
    · subst hij
      refine ⟨c.emit sd m, ?_, ?_⟩
      · exact lookupKey_updateKey_self _ hl
      · rw [emit_st]; exact hst
    · refine ⟨c, ?_, hst⟩
      show lookupKey (updateKey f.chans i' _) i = some c
      rw [lookupKey_updateKey_other _ _ hij]
      exact hl
  | close i' =>
    by_cases hij : i = i'
    · subst hij
      refine ⟨c.close, ?_, ?_⟩
      · exact lookupKey_updateKey_self _ hl
      · exact fun hx => ChanState.noConfusion hx
    · refine ⟨c, ?_, hst⟩
      show lookupKey (updateKey f.chans i' _) i = some c
      rw [lookupKey_updateKey_other _ _ hij]
      exact hl

/-- Claim C1: binding is exactly-once.  (1) the identifier freshly allocated
by `createChannel` can be bound: the first `bindChannel` succeeds, returning
the second (output) endpoint; (2) a successful bind finds the channel
PENDING and moves it to CONNECTED; (3) non-PENDING-ness of an identifier is
preserved by every factory operation, so it persists for the rest of the
run; (4) `bindChannel` on such an identifier fails with a
`ChannelBindError`; (5) `bindChannel` on an identifier that was never
allocated fails with a `ChannelBindError` (`noSuchChannel`). -/
theorem C1_bind_exactly_once :
    (∀ (f : ChannelFactory M), FactInv f →
      bindChannel (createChannel f).1 (createChannel f).2.1 =
        .ok ({ next := (createChannel f).1.next,
               chans := updateKey (createChannel f).1.chans
                          (createChannel f).2.1 ChanM.connect },
             Side.output)) ∧
    (∀ (f : ChannelFactory M) (i : Nat) (f' : ChannelFactory M) (s : Side),
      bindChannel f i = .ok (f', s) →
      s = Side.output ∧
      (∃ c, lookupKey f.chans i = some c ∧ c.st = ChanState.pending) ∧
      (∃ c', lookupKey f'.chans i = some c' ∧ c'.st = ChanState.connected)) ∧
    (∀ (f f' : ChannelFactory M) (i : Nat), Bound f i → FactStep f f' → Bound f' i) ∧
    (∀ (f : ChannelFactory M) (i : Nat), Bound f i →
      ∃ e, bindChannel f i = .error e) ∧
    (∀ (f : ChannelFactory M) (i : Nat), lookupKey f.chans i = none →
      bindChannel f i = .error ChannelBindError.noSuchChannel) := by
  refine ⟨?_, ?_, ?_, ?_, ?_⟩
  · intro f hInv
    have hfresh : ∀ p ∈ f.chans, p.1 ≠ f.next := fun p hp => Nat.ne_of_lt (hInv p hp)
    have hlook : lookupKey ((createChannel f).1).chans f.next = some (freshChan M) := by
      show lookupKey (f.chans ++ [(f.next, freshChan M)]) f.next = some _
      exact lookupKey_append_fresh hfresh _
    exact bindChannel_pending hlook rfl
  · intro f i f' s h
    obtain ⟨hs, c, hl, hst, hf⟩ := bindChannel_ok_shape h
    refine ⟨hs, ⟨c, hl, hst⟩, c.connect, ?_, connect_st c⟩
    rw [hf]
    exact lookupKey_updateKey_self ChanM.connect hl
  · intro f f' i hb hs
    exact factStep_preserves_bound hb hs
  · intro f i hb
    exact bindChannel_bound hb
  · intro f i h
    exact bindChannel_unknown h

theorem C1_bind_exactly_once_witness :
    (bindChannel (createChannel (ChannelFactory.init String)).1
        (createChannel (ChannelFactory.init String)).2.1 =
      .ok ({ next := (createChannel (ChannelFactory.init String)).1.next,
             chans := updateKey (createChannel (ChannelFactory.init String)).1.chans
                        (createChannel (ChannelFactory.init String)).2.1 ChanM.connect },
           Side.output)) ∧
    (Side.output = Side.output ∧
      (∃ c, lookupKey pendingFactory.chans 0 = some c ∧ c.st = ChanState.pending) ∧
      (∃ c', lookupKey
          ({ next := pendingFactory.next,
             chans := updateKey pendingFactory.chans 0 ChanM.connect } :
            ChannelFactory String).chans 0 = some c' ∧
        c'.st = ChanState.connected)) ∧
    Bound (createChannel boundFactory).1 0 ∧
    (∃ e, bindChannel boundFactory 0 = .error e) ∧
    bindChannel (ChannelFactory.init String) 5 =
      .error ChannelBindError.noSuchChannel := by
  have H := C1_bind_exactly_once (M := String)
  refine ⟨H.1 (ChannelFactory.init String) ?_, ?_, ?_, ?_, ?_⟩
  · intro p hp
    simp [ChannelFactory.init] at hp
  · exact H.2.1 pendingFactory 0
      { next := pendingFactory.next,
        chans := updateKey pendingFactory.chans 0 ChanM.connect }
      Side.output rfl
  · exact H.2.2.1 boundFactory (createChannel boundFactory).1 0
      ⟨{ st := .connected, listenersIn := [], listenersOut := [],
         buffer := [], invocs := [] }, by decide, by decide⟩
      (FactStep.create boundFactory)
  · exact H.2.2.2.1 boundFactory 0
      ⟨{ st := .connected, listenersIn := [], listenersOut := [],
         buffer := [], invocs := [] }, by decide, by decide⟩
  · exact H.2.2.2.2 (ChannelFactory.init String) 5 (by decide)

/-- Claim C3: register a listener on the input endpoint returned by
`createChannel` while the channel is PENDING; no invocation has happened
yet.  `bindChannel` then succeeds (returning the output endpoint) and still
causes no invocation.  A message emitted on the output endpoint after
binding invokes the listener with the emitted payload exactly once — the
invocation trace of the channel is exactly `[(input, l, m)]`. -/
theorem C3_prebind_listener_receives (f : ChannelFactory M) (l : Nat) (m : M)
    (hInv : FactInv f) (f1 : ChannelFactory M) (i : Nat) (e : Side)
    (hc : createChannel f = (f1, i, e)) :
    e = Side.input ∧
    chanInvocs (registerOn f1 i Side.input l) i = some [] ∧
    ∃ f3 : ChannelFactory M,
      bindChannel (registerOn f1 i Side.input l) i = .ok (f3, Side.output) ∧
      chanInvocs f3 i = some [] ∧
      chanInvocs (emitOn f3 i Side.output m) i = some [(Side.input, l, m)] := by
  have hcc := hc
  simp only [createChannel, Prod.mk.injEq] at hcc
  obtain ⟨hf1, hi, he⟩ := hcc
  subst hf1
  subst hi
  subst he
  have hfresh : ∀ p ∈ f.chans, p.1 ≠ f.next := fun p hp => Nat.ne_of_lt (hInv p hp)
  have hlook : lookupKey (f.chans ++ [(f.next, freshChan M)]) f.next =
      some (freshChan M) :=
    lookupKey_append_fresh hfresh _
  have hlook1 : lookupKey (updateKey (f.chans ++ [(f.next, freshChan M)]) f.next
      (fun c => c.register Side.input l)) f.next =
      some ((freshChan M).register Side.input l) :=
    lookupKey_updateKey_self _ hlook
  have hlook2 : lookupKey (updateKey (updateKey (f.chans ++ [(f.next, freshChan M)])
        f.next (fun c => c.register Side.input l)) f.next ChanM.connect) f.next =
      some (((freshChan M).register Side.input l).connect) :=
    lookupKey_updateKey_self _ hlook1
  have hlook3 : lookupKey (updateKey (updateKey (updateKey
        (f.chans ++ [(f.next, freshChan M)]) f.next
        (fun c => c.register Side.input l)) f.next ChanM.connect) f.next
        (fun c => c.emit Side.output m)) f.next =
      some ((((freshChan M).register Side.input l).connect).emit Side.output m) :=
    lookupKey_updateKey_self _ hlook2
  refine ⟨rfl, ?_, ?_⟩
  · simp only [chanInvocs, registerOn]
    rw [hlook1]
    rfl
  · refine ⟨{ next := f.next + 1,
              chans := updateKey (updateKey (f.chans ++ [(f.next, freshChan M)])
                f.next (fun c => c.register Side.input l)) f.next ChanM.connect },
            bindChannel_pending hlook1 rfl, ?_, ?_⟩
    · simp only [chanInvocs]
      rw [hlook2]
      rfl
    · simp only [chanInvocs, emitOn]
      rw [hlook3]
      rfl

theorem C3_prebind_listener_receives_witness :
    Side.input = Side.input ∧
    chanInvocs (registerOn (createChannel (ChannelFactory.init String)).1 0
      Side.input 0) 0 = some [] ∧
    ∃ f3 : ChannelFactory String,
      bindChannel (registerOn (createChannel (ChannelFactory.init String)).1 0
        Side.input 0) 0 = .ok (f3, Side.output) ∧
      chanInvocs f3 0 = some [] ∧
      chanInvocs (emitOn f3 0 Side.output "whoo!") 0 =
        some [(Side.input, 0, "whoo!")] :=
  C3_prebind_listener_receives (ChannelFactory.init String) 0 "whoo!"
    (fun p hp => absurd hp (List.not_mem_nil p))
    (createChannel (ChannelFactory.init String)).1 0 Side.input rfl

end Freedom.Channels

namespace Freedom.Routing

variable {Cfg M : Type}

theorem count_map_pair {α β : Type} [DecidableEq α] [DecidableEq β]
    (L : List α) (p : α) (v : β) :
    (L.map (fun q => (q, v))).count (p, v) = L.count p := by
  induction L with
  | nil => rfl
  | cons q t ih => simp [List.count_cons, ih]

/-- Claim C4: a second `setup` with an already-registered Port id fails and
leaves the Manager state — in particular the first Port's `id → flow` entry
and message delivery through the Hub — completely unchanged. -/
theorem C4_duplicate_setup_rejected (c : Core Cfg M) (pid : String) (fl : Nat)
    (h : lookupKey c.flows pid = some fl) :
    setup c pid = (false, c) ∧
    lookupKey (setup c pid).2.flows pid = some fl ∧
    ∀ (t : String) (m : HubMsg M), hubEmit (setup c pid).2 t m = hubEmit c t m := by
  have hs : (lookupKey c.flows pid).isSome := by rw [h]; rfl
  have he : setup c pid = (false, c) := by
    unfold setup
    rw [if_pos hs]
  refine ⟨he, ?_, ?_⟩
  · rw [he]
    exact h
  · intro t m
    rw [he]

theorem C4_duplicate_setup_rejected_witness :
    setup sampleCore "p" = (false, sampleCore) ∧
    lookupKey (setup sampleCore "p").2.flows "p" = some 0 ∧
    hubEmit (setup sampleCore "p").2 "p"
        ({ source := "s", payload := "x" } : HubMsg String) =
      hubEmit sampleCore "p" ({ source := "s", payload := "x" } : HubMsg String) := by
  have H := C4_duplicate_setup_rejected sampleCore "p" 0 (by decide)
  exact ⟨H.1, H.2.1, H.2.2 "p" { source := "s", payload := "x" }⟩

/-- Claim C5: a `config` broadcast delivers the configuration to every
currently registered Port (once each, in registration order) and installs it
as shared state; `setup` never changes the installed configuration and hands
it to every later-registered Port at registration time — so every Port,
whenever it joined, observes the same configuration object. -/
theorem C5_config_broadcast [DecidableEq Cfg] (c : Core Cfg M) (cfg : Cfg) :
    (emitConfig c cfg).configDelivered =
      c.configDelivered ++ c.ports.map (fun p => (p, cfg)) ∧
    (emitConfig c cfg).config = some cfg ∧
    (∀ p : String, c.ports.Nodup → p ∈ c.ports →
      ((emitConfig c cfg).configDelivered).count (p, cfg) =
        c.configDelivered.count (p, cfg) + 1) ∧
    (∀ (d : Core Cfg M) (pid : String), (setup d pid).2.config = d.config) ∧
    (∀ (d : Core Cfg M) (pid : String), d.config = some cfg →
      lookupKey d.flows pid = none →
      (setup d pid).2.configDelivered = d.configDelivered ++ [(pid, cfg)]) := by
  refine ⟨rfl, rfl, ?_, ?_, ?_⟩
  · intro p hnd hp
    show (c.configDelivered ++ c.ports.map (fun q => (q, cfg))).count (p, cfg) = _
    rw [List.count_append, count_map_pair, List.count_eq_one_of_mem hnd hp]
  · intro d pid
    unfold setup
    by_cases hd : (lookupKey d.flows pid).isSome
    · rw [if_pos hd]
    · rw [if_neg hd]
  · intro d pid hcfg hnone
    have hd : ¬ (lookupKey d.flows pid).isSome = true := by
      rw [hnone]
      simp
    unfold setup
    rw [if_neg hd]
    simp [hcfg]

theorem C5_config_broadcast_witness :
    (emitConfig sampleCore "cfg").configDelivered =
      sampleCore.configDelivered ++ sampleCore.ports.map (fun p => (p, "cfg")) ∧
    (emitConfig sampleCore "cfg").config = some "cfg" ∧
    ((emitConfig sampleCore "cfg").configDelivered).count ("p", "cfg") =
      sampleCore.configDelivered.count ("p", "cfg") + 1 ∧
    (setup (emitConfig sampleCore "cfg") "q").2.config =
      (emitConfig sampleCore "cfg").config ∧
    (setup (emitConfig sampleCore "cfg") "q").2.configDelivered =
      (emitConfig sampleCore "cfg").configDelivered ++ [("q", "cfg")] := by
  have H := C5_config_broadcast sampleCore "cfg"
  exact ⟨H.1, H.2.1, H.2.2.1 "p" (by decide) (by decide),
         H.2.2.2.1 (emitConfig sampleCore "cfg") "q",
         H.2.2.2.2 (emitConfig sampleCore "cfg") "q" rfl (by decide)⟩

/-- Claim C6: `Hub.emit` to a target absent from the routing table drops the
message — the only state change is a "no such target" diagnostic appended
for the debug port; the routing table and the delivery trace are unchanged
and no exception is thrown (the operation is a total function). -/
theorem C6_unknown_target_dropped (c : Core Cfg M) (t : String) (m : HubMsg M)
    (h : lookupKey c.flows t = none) :
    hubEmit c t m = { c with debugLog := c.debugLog ++ ["no such target " ++ t] } ∧
    (hubEmit c t m).flows = c.flows ∧
    (hubEmit c t m).delivered = c.delivered := by
  have he : hubEmit c t m =
      { c with debugLog := c.debugLog ++ ["no such target " ++ t] } := by
    unfold hubEmit
    rw [h]
  exact ⟨he, by rw [he], by rw [he]⟩

theorem C6_unknown_target_dropped_witness :
    hubEmit sampleCore "ghost" ({ source := "s", payload := "x" } : HubMsg String) =
      { sampleCore with
          debugLog := sampleCore.debugLog ++ ["no such target " ++ "ghost"] } ∧
    (hubEmit sampleCore "ghost"
      ({ source := "s", payload := "x" } : HubMsg String)).flows = sampleCore.flows ∧
    (hubEmit sampleCore "ghost"
      ({ source := "s", payload := "x" } : HubMsg String)).delivered =
        sampleCore.delivered :=
  C6_unknown_target_dropped sampleCore "ghost" { source := "s", payload := "x" }
    (by decide)

/-- Claim C7: the `source` of every delivered message is stamped by the Hub
from the flow's registered owner: two sends that differ only in the
sender-supplied `source` field produce identical Hub states, and when the
flow has owner `o` and the target is routed, the delivered message carries
source `o` — never the sender-supplied value. -/
theorem C7_source_stamped (c : Core Cfg M) (fl : Nat) (t : String)
    (m1 m2 : HubMsg M) (hp : m1.payload = m2.payload) :
    hubSendFrom c fl t m1 = hubSendFrom c fl t m2 ∧
    (∀ o : String, ownerOf c fl = some o →
      ∀ w : Nat, lookupKey c.flows t = some w →
        (hubSendFrom c fl t m1).delivered =
          c.delivered ++ [(t, { source := o, payload := m1.payload })]) := by
  obtain ⟨s1, p1⟩ := m1
  obtain ⟨s2, p2⟩ := m2
  simp only at hp
  subst hp
  constructor
  · unfold hubSendFrom
    cases ho : ownerOf c fl with
    | none => rfl
    | some o => rfl
  · intro o ho w hw
    unfold hubSendFrom
    rw [ho]
    unfold hubEmit
    rw [hw]

theorem C7_source_stamped_witness :
    hubSendFrom sampleCore 0 "p" ({ source := "spoofA", payload := "x" } : HubMsg String) =
      hubSendFrom sampleCore 0 "p"
        ({ source := "spoofB", payload := "x" } : HubMsg String) ∧
    (hubSendFrom sampleCore 0 "p"
        ({ source := "spoofA", payload := "x" } : HubMsg String)).delivered =
      sampleCore.delivered ++ [("p", { source := "p", payload := "x" })] := by
  have H := C7_source_stamped sampleCore 0 "p"
    { source := "spoofA", payload := "x" } { source := "spoofB", payload := "x" } rfl
  exact ⟨H.1, H.2 "p" (by decide) 0 (by decide)⟩

end Freedom.Routing

namespace Freedom.WSSocial

/-- Claim C10: `changeRoster(id, stat)` dispatches `onClientState` if and
only if `id` is not yet a key of `clients`, or the stored client state's
status differs from the status derived from `stat`; and when `stat` is
false, `id` is removed from both `users` and `clients`. -/
theorem C10_changeRoster_events (s : Social) (id : String) (stat : Bool) (now : Nat) :
    (∃ delta : List SEvent,
      (changeRoster s id stat now).1.events = s.events ++ delta ∧
      (SEvent.onClientState
          { userId := id, clientId := id, timestamp := now,
            status := if stat then SStatus.online else SStatus.offline } ∈ delta ↔
        (Freedom.lookupKey s.clients id = none ∨
          ∃ c, Freedom.lookupKey s.clients id = some c ∧
            c.status ≠ (if stat then SStatus.online else SStatus.offline)))) ∧
    (stat = false →
      Freedom.lookupKey (changeRoster s id stat now).1.users id = none ∧
      Freedom.lookupKey (changeRoster s id stat now).1.clients id = none) := by
  constructor
  · cases stat with
    | false =>
      cases hcl : Freedom.lookupKey s.clients id with
      | none =>
        refine ⟨[SEvent.onClientState
          { userId := id, clientId := id, timestamp := now,
            status := SStatus.offline }], ?_, ?_⟩
        · simp [changeRoster, hcl]
        · simp [hcl]
      | some c =>
        by_cases hst : c.status = SStatus.offline
        · refine ⟨[], ?_, ?_⟩
          · simp [changeRoster, hcl, hst]
          · simp [hcl, hst]
        · refine ⟨[SEvent.onClientState
            { userId := id, clientId := id, timestamp := now,
              status := SStatus.offline }], ?_, ?_⟩
          · simp [changeRoster, hcl, hst]
          · simp [hcl, hst]
    | true =>
      cases hcl : Freedom.lookupKey s.clients id with
      | none =>
        cases hu : Freedom.lookupKey s.users id with
        | none =>
          refine ⟨[SEvent.onClientState
              { userId := id, clientId := id, timestamp := now,
                status := SStatus.online },
            SEvent.onUserProfile { userId := id, name := id, timestamp := now }],
            ?_, ?_⟩
          · simp [changeRoster, hcl, hu]
          · simp [hcl]
        | some u =>
          refine ⟨[SEvent.onClientState
            { userId := id, clientId := id, timestamp := now,
              status := SStatus.online }], ?_, ?_⟩
          · simp [changeRoster, hcl, hu]
          · simp [hcl]
      | some c =>
        by_cases hst : c.status = SStatus.online
        · cases hu : Freedom.lookupKey s.users id with
          | none =>
            refine ⟨[SEvent.onUserProfile { userId := id, name := id, timestamp := now }],
              ?_, ?_⟩
            · simp [changeRoster, hcl, hst, hu]
            · simp [hcl, hst]
          | some u =>
            refine ⟨[], ?_, ?_⟩
            · simp [changeRoster, hcl, hst, hu]
            · simp [hcl, hst]
        · cases hu : Freedom.lookupKey s.users id with
          | none =>
            refine ⟨[SEvent.onClientState
                { userId := id, clientId := id, timestamp := now,
                  status := SStatus.online },
              SEvent.onUserProfile { userId := id, name := id, timestamp := now }],
              ?_, ?_⟩
            · simp [changeRoster, hcl, hst, hu]
            · simp [hcl, hst]
          | some u =>
            refine ⟨[SEvent.onClientState
              { userId := id, clientId := id, timestamp := now,
                status := SStatus.online }], ?_, ?_⟩
            · simp [changeRoster, hcl, hst, hu]
            · simp [hcl, hst]
  · intro hstat
    subst hstat
    exact ⟨Freedom.lookupKey_eraseKey_self s.users id,
           Freedom.lookupKey_eraseKey_self s.clients id⟩

theorem C10_changeRoster_events_witness :
    (∃ delta : List SEvent,
      (changeRoster sampleSocial "u" false 3).1.events = sampleSocial.events ++ delta ∧
      (SEvent.onClientState
          { userId := "u", clientId := "u", timestamp := 3,
            status := if false then SStatus.online else SStatus.offline } ∈ delta ↔
        (Freedom.lookupKey sampleSocial.clients "u" = none ∨
          ∃ c, Freedom.lookupKey sampleSocial.clients "u" = some c ∧
            c.status ≠ (if false then SStatus.online else SStatus.offline)))) ∧
    (Freedom.lookupKey (changeRoster sampleSocial "u" false 3).1.users "u" = none ∧
     Freedom.lookupKey (changeRoster sampleSocial "u" false 3).1.clients "u" = none) := by
  have H := C10_changeRoster_events sampleSocial "u" false 3
  exact ⟨H.1, H.2 rfl⟩

end Freedom.WSSocial
